import Mathlib

/-
Verification development for the FPL advisor notebook (train_nn_model.ipynb).
The notebook builds pandas tables by joins and group-by/pivot aggregations and
trains a small regression network.  We shallowly embed each table construction
as a Lean function over lists of rows: pandas float columns become the type
FVal (a rational, a signed infinity, or NaN, where NaN doubles as the missing
value produced by a failed group in unstack), integer columns become ℤ, and
fallible lookups become Option.
-/

namespace FPLAdvisor

/-- Value of a pandas float cell: NaN (also the missing value), a signed
infinity (true = positive), or a finite rational. -/
inductive FVal where
  | nan : FVal
  | inf : Bool → FVal
  | num : ℚ → FVal
deriving DecidableEq, Repr

/-- IEEE-style addition on FVal, as numpy performs it on float columns. -/
def fadd : FVal → FVal → FVal
  | FVal.nan, _ => FVal.nan
  | _, FVal.nan => FVal.nan
  | FVal.num a, FVal.num b => FVal.num (a + b)
  | FVal.inf s, FVal.num _ => FVal.inf s
  | FVal.num _, FVal.inf s => FVal.inf s
  | FVal.inf s, FVal.inf t => if s = t then FVal.inf s else FVal.nan

/-- IEEE-style subtraction on FVal. -/
def fsub : FVal → FVal → FVal
  | FVal.nan, _ => FVal.nan
  | _, FVal.nan => FVal.nan
  | FVal.num a, FVal.num b => FVal.num (a - b)
  | FVal.inf s, FVal.num _ => FVal.inf s
  | FVal.num _, FVal.inf s => FVal.inf (!s)
  | FVal.inf s, FVal.inf t => if s = t then FVal.nan else FVal.inf s

/-- IEEE-style division on FVal: a finite nonzero value divided by zero gives
a signed infinity, 0/0 gives NaN, NaN propagates.  This is what pandas does
when a ratio column is computed by plain division. -/
def fdiv : FVal → FVal → FVal
  | FVal.nan, _ => FVal.nan
  | _, FVal.nan => FVal.nan
  | FVal.num a, FVal.num b =>
      if b = 0 then (if a = 0 then FVal.nan else FVal.inf (decide (0 < a)))
      else FVal.num (a / b)
  | FVal.inf s, FVal.num b => if 0 ≤ b then FVal.inf s else FVal.inf (!s)
  | FVal.num _, FVal.inf _ => FVal.num 0
  | FVal.inf _, FVal.inf _ => FVal.nan

/-- A row of the denormalized players_history_fixtures table, restricted to
the columns consumed by the group-by/pivot aggregations in the notebook
(cells building team_point_stats, team_point_opp_stats and team_stats). -/
structure PHF where
  playerTeamId : ℕ
  oppTeamId : ℕ
  fieldPositionId : ℕ
  isHome : Bool
  gamePoints : ℤ
deriving DecidableEq, Repr

/-- One cell of groupby([key, Is Home?])[Game Total Points].sum().unstack():
NaN when the (k, h) group is absent from the long table, otherwise the sum of
Game Total Points over the group. -/
def pivotSum (key : PHF → ℕ) (rows : List PHF) (k : ℕ) (h : Bool) : FVal :=
  let grp := rows.filter (fun r => key r == k && r.isHome == h)
  if grp.isEmpty then FVal.nan
  else FVal.num (((grp.map (fun r => r.gamePoints)).sum : ℤ) : ℚ)

/-- Column Team Total Points Home of team_point_stats. -/
def teamTotalPointsHome (rows : List PHF) (k : ℕ) : FVal :=
  pivotSum (fun r => r.playerTeamId) rows k true

/-- Column Team Total Points Away of team_point_stats. -/
def teamTotalPointsAway (rows : List PHF) (k : ℕ) : FVal :=
  pivotSum (fun r => r.playerTeamId) rows k false

/-- Column Team Total Points of team_point_stats: assigned as the away column
plus the home column. -/
def teamTotalPoints (rows : List PHF) (k : ℕ) : FVal :=
  fadd (teamTotalPointsAway rows k) (teamTotalPointsHome rows k)

/-- Column Team Total Points Home Away Ratio of team_point_stats: plain
division of the away column by the home column. -/
def teamTotalPointsHomeAwayRatioVal (rows : List PHF) (k : ℕ) : FVal :=
  fdiv (teamTotalPointsAway rows k) (teamTotalPointsHome rows k)

/-- Column Team Total Points Opps Home of team_point_opp_stats (same pivot,
keyed on the team's role as opponent). -/
def teamTotalPointsOppsHome (rows : List PHF) (k : ℕ) : FVal :=
  pivotSum (fun r => r.oppTeamId) rows k true

/-- Column Team Total Points Opps Away of team_point_opp_stats. -/
def teamTotalPointsOppsAway (rows : List PHF) (k : ℕ) : FVal :=
  pivotSum (fun r => r.oppTeamId) rows k false

/-- Column Team Total Points Opps Home Away Ratio of team_point_opp_stats. -/
def teamTotalPointsOppsHomeAwayRatioVal (rows : List PHF) (k : ℕ) : FVal :=
  fdiv (teamTotalPointsOppsAway rows k) (teamTotalPointsOppsHome rows k)

/-- Column Total Points Home of team_stats (pivot keyed on field position). -/
def totalPointsHomeForPos (rows : List PHF) (pos : ℕ) : FVal :=
  pivotSum (fun r => r.fieldPositionId) rows pos true

/-- Column Total Points Away of team_stats. -/
def totalPointsAwayForPos (rows : List PHF) (pos : ℕ) : FVal :=
  pivotSum (fun r => r.fieldPositionId) rows pos false

/-- Column Total Points Home Away Ratio of team_stats, computed in the
notebook as 1 - (1 - Away/Home)/2. -/
def totalPointsHomeAwayRatioForPos (rows : List PHF) (pos : ℕ) : FVal :=
  fsub (FVal.num 1)
    (fdiv
      (fsub (FVal.num 1)
        (fdiv (totalPointsAwayForPos rows pos) (totalPointsHomeForPos rows pos)))
      (FVal.num 2))

/-- Specification-side aggregate for C3: the (unsplit) total of Game Total
Points over all of team k's appearances, NaN when the team never appears. -/
def teamAllPointsVal (rows : List PHF) (k : ℕ) : FVal :=
  let grp := rows.filter (fun r => r.playerTeamId == k)
  if grp.isEmpty then FVal.nan
  else FVal.num (((grp.map (fun r => r.gamePoints)).sum : ℤ) : ℚ)

/-- Input exhibiting the division by zero in the ratio column: team 1 has one
home appearance worth 0 points and one away appearance worth 5 points. -/
def c1rows : List PHF :=
  [⟨1, 2, 3, true, 0⟩, ⟨1, 2, 3, false, 5⟩]

/-- A row of the player_teams table (players joined with teams; the frame is
indexed by Player ID), after the inner merge with team_score_stats that
precedes the Team Total Points assignment in the notebook. -/
structure PlayerRow where
  playerId : ℕ
  playerTeamId : ℕ
  totalPoints : ℤ
deriving DecidableEq, Repr

/-- Entry t of groupby(Player Team ID)[Total Points].sum(): the sum of Total
Points over the players whose Player Team ID is t. -/
def teamPointsSum (ps : List PlayerRow) (t : ℕ) : ℤ :=
  ((ps.filter (fun p => p.playerTeamId == t)).map (fun p => p.totalPoints)).sum

/-- Whether team id t occurs in the frame, i.e. t is in the index of the
groupby(Player Team ID) sum series. -/
def teamPresent (ps : List PlayerRow) (t : ℕ) : Bool :=
  ps.any (fun p => p.playerTeamId == t)

/-- Column Team Total Points of player_team_stats.  pandas assign aligns the
groupby sum series (indexed by Player Team ID) on the frame's own index
(Player ID), so the row of player p receives the group sum whose key equals
p's player id — missing when no team has that id. -/
def playerTeamStatsTeamTotalPoints (ps : List PlayerRow) (p : PlayerRow) : Option ℤ :=
  if teamPresent ps p.playerId then some (teamPointsSum ps p.playerId) else none

/-- One stint of a player's chronologically ordered fixture history: the
gameweek and the points earned in that fixture. -/
structure GwRec where
  gw : ℕ
  points : ℤ
deriving DecidableEq, Repr

/-- Modelled from the spec: calc_player_fixture_stats is defined in the
notebook's local data module, which is absent from the repository snapshot.
Per spec section 4.3, GWs Played To GW is the cumulative count of distinct
gameweeks the player has played strictly before row i of their
chronologically ordered fixture history. -/
def gwsPlayedToGW (hist : List GwRec) (i : ℕ) : ℕ :=
  ((hist.take i).map (fun r => r.gw)).toFinset.card

/-- Modelled from the spec: Avg Points To GW, the player's average points per
gameweek over the history strictly before row i; missing on the player's
first appearance, which has no prior history. -/
def avgPointsToGW (hist : List GwRec) (i : ℕ) : Option ℚ :=
  if i = 0 then none
  else some ((((hist.take i).map (fun r => r.points)).sum : ℤ) / (gwsPlayedToGW hist i : ℚ))

/-- A row of player_fixture_stats restricted to GWs Played To GW plus the
five feature columns and the target selected by the dataset builder.  Every
selected cell is Option-valued to model possible NaN cells. -/
structure PFSRow where
  gwsPlayed : ℕ
  fieldPosition : Option ℕ
  avgPointsOppAdj : Option ℚ
  gameTotalPoints : Option ℤ
  isHome : Option Bool
  avgMinutesRecently : Option ℚ
  oppGoalsScoredDiff : Option ℤ
deriving DecidableEq, Repr

/-- A row survives dropna(how=any) over the selected columns exactly when
each of the six selected cells is present. -/
def rowComplete (r : PFSRow) : Bool :=
  r.fieldPosition.isSome && r.avgPointsOppAdj.isSome && r.gameTotalPoints.isSome &&
    r.isHome.isSome && r.avgMinutesRecently.isSome && r.oppGoalsScoredDiff.isSome

/-- The table handed to nn_split: player_fixture_stats filtered to rows with
GWs Played To GW at least 10, the six selected columns, with incomplete rows
dropped. -/
def datasetRows (rows : List PFSRow) : List PFSRow :=
  (rows.filter (fun r => 10 ≤ r.gwsPlayed)).filter rowComplete

/-- One step of a linear congruential generator (glibc constants), reduced
modulo 2^31. -/
def lcgNext (s : ℕ) : ℕ := (s * 1103515245 + 12345) % 2147483648

/-- The n-th value of the LCG stream started from the fixed seed. -/
def lcgVal (seed : ℕ) : ℕ → ℕ
  | 0 => lcgNext seed
  | n + 1 => lcgNext (lcgVal seed n)

/-- Modelled from the spec: nn_split lives in the notebook's local nn module,
absent from the repository snapshot.  Per spec section 4.4 it is a randomized
80/20 train/test split driven by a fixed, reproducible seed: here each row is
keyed by a seeded LCG stream, the rows are shuffled by sorting on those keys,
and the first round(0.8 N) rows form the train partition, the rest the test
partition.  This function is the seeded shuffle. -/
def shuffleRows (rows : List α) : List α :=
  (List.insertionSort (fun a b => a.1 ≤ b.1)
      (((List.range rows.length).map (lcgVal 42)).zip rows)).map Prod.snd

/-- The split itself: the first round(0.8 N) shuffled rows train, the rest
test. -/
def nnSplit (rows : List α) : List α × List α :=
  ((shuffleRows rows).take ((8 * rows.length + 5) / 10),
   (shuffleRows rows).drop ((8 * rows.length + 5) / 10))

/-- Modelled from the spec: the keras fit loop configured in the notebook,
counting executed passes.  The cap is the epochs argument; after each pass
the EarlyStopping wait counter resets to 0 on a validation-loss improvement
and increments otherwise, and training stops once it reaches the patience.
impr n says whether pass n improved the monitored validation loss. -/
def epochsRun (patience : ℕ) : ℕ → (ℕ → Bool) → ℕ → ℕ
  | 0, _, _ => 0
  | n + 1, impr, wait =>
      if patience ≤ (if impr 0 then 0 else wait + 1) then 1
      else 1 + epochsRun patience n (fun i => impr (i + 1)) (if impr 0 then 0 else wait + 1)

/-- A row of the players_history table restricted to the columns the join
uses: the composite key plus the per-game figures carried along. -/
structure HistRow where
  playerId : ℕ
  fixtureId : ℕ
  gamePoints : ℤ
  gameMinutes : ℕ
deriving DecidableEq, Repr

/-- The fixture columns joined into players_history_fixtures. -/
structure FixtureRow where
  homeTeamId : ℕ
  awayTeamId : ℕ
  gameweek : ℕ
deriving DecidableEq, Repr

/-- The player_team_stats columns joined into players_history_fixtures. -/
structure PTSRow where
  playerTeamId : ℕ
  fieldPositionId : ℕ
deriving DecidableEq, Repr

/-- A row of players_history_fixtures: the history row, the joined-in fixture
and player-team columns, and the two derived columns. -/
structure PHFRow where
  playerId : ℕ
  fixtureId : ℕ
  gamePoints : ℤ
  homeTeamId : ℕ
  awayTeamId : ℕ
  playerTeamId : ℕ
  isHome : Bool
  oppTeamId : ℕ
deriving DecidableEq, Repr

/-- Lookup of a key in an id-indexed table (the index of the CSV-loaded
frames is unique). -/
def lookupTable (tbl : List (ℕ × β)) (k : ℕ) : Option β :=
  (tbl.find? (fun q => q.1 == k)).map (fun q => q.2)

/-- The contribution of one history row to players_history_fixtures: both
inner merges must match, then Is Home? is Home Team ID == Player Team ID and
Opp Team ID is the other side of the fixture. -/
def phfRow (fixtures : List (ℕ × FixtureRow)) (pts : List (ℕ × PTSRow))
    (h : HistRow) : Option PHFRow :=
  match lookupTable fixtures h.fixtureId, lookupTable pts h.playerId with
  | some fx, some p =>
      let ih := fx.homeTeamId == p.playerTeamId
      some { playerId := h.playerId, fixtureId := h.fixtureId, gamePoints := h.gamePoints,
             homeTeamId := fx.homeTeamId, awayTeamId := fx.awayTeamId,
             playerTeamId := p.playerTeamId, isHome := ih,
             oppTeamId := if ih then fx.awayTeamId else fx.homeTeamId }
  | _, _ => none

/-- players_history_fixtures: the history table inner-merged with fixtures on
Fixture ID and with player_team_stats on Player ID; unmatched rows drop. -/
def playersHistoryFixtures (hist : List HistRow) (fixtures : List (ℕ × FixtureRow))
    (pts : List (ℕ × PTSRow)) : List PHFRow :=
  hist.filterMap (phfRow fixtures pts)

/-- Players table exhibiting the Team Total Points misalignment: one player
with Player ID 30 on team 1 scoring 7 points. -/
def c2players : List PlayerRow := [⟨30, 1, 7⟩]

/-- Concrete team_point_stats input with team 1 appearing both home and away,
used to instantiate the pivot-additivity theorem. -/
def c3rows : List PHF := [⟨1, 2, 3, true, 4⟩, ⟨1, 2, 3, false, 6⟩]

/-- Concrete team_stats input for field position 1 with home points totalling
10 and away points totalling 5. -/
def c4rows : List PHF := [⟨9, 9, 1, true, 4⟩, ⟨9, 9, 1, true, 6⟩, ⟨9, 9, 1, false, 5⟩]

/-- The sums of Game Total Points over a team's home rows and away rows add
up to the sum over all of that team's rows. -/
theorem sum_filter_home_split (rows : List PHF) (k : ℕ) :
    (((rows.filter (fun r => r.playerTeamId == k && r.isHome == true)).map
        (fun r => r.gamePoints)).sum : ℤ)
      + ((rows.filter (fun r => r.playerTeamId == k && r.isHome == false)).map
          (fun r => r.gamePoints)).sum
      = ((rows.filter (fun r => r.playerTeamId == k)).map (fun r => r.gamePoints)).sum := by
  induction rows with
  | nil => simp
  | cons r rs ih =>
      by_cases hk : r.playerTeamId = k
      · cases hh : r.isHome <;> (simp [List.filter_cons, hk, hh] at ih ⊢; omega)
      · have hk2 : (r.playerTeamId == k) = false := by simpa using hk
        simp only [List.filter_cons, hk2, Bool.false_and, Bool.false_eq_true, if_false]
        exact ih

/-- C1: the Team Total Points Home Away Ratio column is computed by bare
division of the away total by the home total.  On an input where team 1's
home appearances sum to 0 points and its away appearances to 5, the column is
+infinity — not the explicit missing value the claim requires, so the
computation does produce infinity when the home total is zero. -/
theorem c1_ratio_div_by_zero_yields_infinity :
    teamTotalPointsHome c1rows 1 = FVal.num 0 ∧
    teamTotalPointsAway c1rows 1 = FVal.num 5 ∧
    teamTotalPointsHomeAwayRatioVal c1rows 1 = FVal.inf true ∧
    FVal.inf true ≠ FVal.nan := by
  refine ⟨?_, ?_, ?_, ?_⟩ <;> decide

/-- C2: the Team Total Points column of player_team_stats is assigned from a
group-by sum indexed by team id, which pandas aligns on the frame's Player ID
index.  For a lone player with id 30 on team 1 scoring 7 points, the column
is missing (no team has id 30) while the claim requires the team sum 7. -/
theorem c2_team_total_points_misaligned :
    playerTeamStatsTeamTotalPoints c2players ⟨30, 1, 7⟩ = none ∧
    teamPointsSum c2players (PlayerRow.mk 30 1 7).playerTeamId = 7 ∧
    (none : Option ℤ) ≠ some 7 := by
  refine ⟨?_, ?_, ?_⟩ <;> decide

/-- C3: in team_point_stats the Team Total Points column is the away column
plus the home column, and when the team has both home and away appearances
this pivot total agrees with the direct sum of Game Total Points over all of
the team's appearances. -/
theorem c3_pivot_additive (rows : List PHF) (k : ℕ)
    (hh : (rows.filter (fun r => r.playerTeamId == k && r.isHome == true)).isEmpty = false)
    (ha : (rows.filter (fun r => r.playerTeamId == k && r.isHome == false)).isEmpty = false) :
    teamTotalPoints rows k
      = fadd (teamTotalPointsAway rows k) (teamTotalPointsHome rows k) ∧
    teamTotalPoints rows k = teamAllPointsVal rows k := by
  refine ⟨rfl, ?_⟩
  have h1 : rows.filter (fun r => r.playerTeamId == k && r.isHome == true) ≠ [] := by
    intro hx
    rw [hx] at hh
    simp at hh
  obtain ⟨r, hrm⟩ := List.exists_mem_of_ne_nil _ h1
  have hrk : r ∈ rows.filter (fun r => r.playerTeamId == k) := by
    have hm := List.mem_filter.mp hrm
    exact List.mem_filter.mpr ⟨hm.1, by
      have := hm.2
      simp only [Bool.and_eq_true] at this
      exact this.1⟩
  have hall : (rows.filter (fun r => r.playerTeamId == k)).isEmpty = false := by
    cases hE : (rows.filter (fun r => r.playerTeamId == k)).isEmpty
    · rfl
    · rw [List.isEmpty_iff.mp hE] at hrk
      cases hrk
  simp only [teamTotalPoints, teamTotalPointsAway, teamTotalPointsHome, teamAllPointsVal,
    pivotSum, hh, ha, hall, Bool.false_eq_true, if_false, fadd]
  have hsplit := sum_filter_home_split rows k
  congr 1
  rw [← hsplit]
  push_cast
  ring

/-- C4: the Total Points Home Away Ratio column of team_stats is the exact
dampening transform 1 - (1 - away/home)/2 applied to the position's away and
home totals; with nonzero home total the FVal computation reduces to that
rational formula. -/
theorem c4_pos_ratio_formula (rows : List PHF) (pos : ℕ) (a h : ℚ)
    (hhome : totalPointsHomeForPos rows pos = FVal.num h)
    (haway : totalPointsAwayForPos rows pos = FVal.num a)
    (hne : h ≠ 0) :
    totalPointsHomeAwayRatioForPos rows pos = FVal.num (1 - (1 - a / h) / 2) := by
  rw [totalPointsHomeAwayRatioForPos, hhome, haway]
  norm_num [fdiv, fsub, hne]

/-- Witness for C4 at the spec's hand-computed fixture: position totals of
home 10 and away 5 give a dampened ratio of 3/4. -/
theorem c4_pos_ratio_formula_witness :
    totalPointsHomeAwayRatioForPos c4rows 1 = FVal.num (3 / 4) := by
  have h := c4_pos_ratio_formula c4rows 1 5 10 (by decide) (by decide) (by norm_num)
  rw [h]
  congr 1
  norm_num

/-- Witness for C3 at a concrete table where team 1 has a home appearance
worth 4 points and an away appearance worth 6. -/
theorem c3_pivot_additive_witness :
    teamTotalPoints c3rows 1
      = fadd (teamTotalPointsAway c3rows 1) (teamTotalPointsHome c3rows 1) ∧
    teamTotalPoints c3rows 1 = teamAllPointsVal c3rows 1 :=
  c3_pivot_additive c3rows 1 (by decide) (by decide)

/-- The seeded shuffle is a permutation of its input. -/
theorem shuffleRows_perm (rows : List α) : (shuffleRows rows).Perm rows := by
  have h2 := List.perm_insertionSort (fun (a b : ℕ × α) => a.1 ≤ b.1)
    (((List.range rows.length).map (lcgVal 42)).zip rows)
  have h3 := h2.map (Prod.snd : ℕ × α → α)
  rwa [List.map_snd_zip _ _ (by simp)] at h3

/-- The seeded shuffle preserves length. -/
theorem shuffleRows_length (rows : List α) : (shuffleRows rows).length = rows.length :=
  (shuffleRows_perm rows).length_eq

/-- The two partitions of nnSplit together are a permutation of the input. -/
theorem nnSplit_append_perm (rows : List α) :
    ((nnSplit rows).1 ++ (nnSplit rows).2).Perm rows := by
  show ((shuffleRows rows).take _ ++ (shuffleRows rows).drop _).Perm rows
  rw [List.take_append_drop]
  exact shuffleRows_perm rows

/-- Membership in either partition of nnSplit implies membership in the
input. -/
theorem mem_of_mem_nnSplit {rows : List α} {r : α}
    (hr : r ∈ (nnSplit rows).1 ∨ r ∈ (nnSplit rows).2) : r ∈ rows := by
  have hs : r ∈ shuffleRows rows := by
    cases hr with
    | inl h => exact List.mem_of_mem_take h
    | inr h => exact List.mem_of_mem_drop h
  exact (shuffleRows_perm rows).mem_iff.mp hs

/-- C5: the rolling player statistics are point-in-time safe: they depend
only on the history rows strictly before the given index (so two histories
agreeing up to the fixture agree on the statistics), the cumulative distinct
gameweek count is non-decreasing along the chronological sequence, it is zero
on the player's first appearance, and the average is missing there. -/
theorem c5_rolling_stats_point_in_time (hist hist2 : List GwRec) (i : ℕ)
    (hpre : hist.take i = hist2.take i) :
    gwsPlayedToGW hist i = gwsPlayedToGW hist2 i ∧
    avgPointsToGW hist i = avgPointsToGW hist2 i ∧
    gwsPlayedToGW hist i ≤ gwsPlayedToGW hist (i + 1) ∧
    gwsPlayedToGW hist 0 = 0 ∧
    avgPointsToGW hist 0 = none := by
  refine ⟨?_, ?_, ?_, ?_, ?_⟩
  · rw [gwsPlayedToGW, gwsPlayedToGW, hpre]
  · rw [avgPointsToGW, avgPointsToGW, gwsPlayedToGW, gwsPlayedToGW, hpre]
  · apply Finset.card_le_card
    intro x hx
    rw [List.mem_toFinset] at hx ⊢
    rcases List.mem_map.mp hx with ⟨r, hr, hxx⟩
    refine List.mem_map.mpr ⟨r, ?_, hxx⟩
    have htt : hist.take i = (hist.take (i + 1)).take i := by
      rw [List.take_take]
      congr 1
      omega
    rw [htt] at hr
    exact List.take_subset i (hist.take (i + 1)) hr
  · rw [gwsPlayedToGW]
    simp
  · rfl

/-- Witness for C5 at index 1 of two histories sharing their first row. -/
theorem c5_rolling_stats_point_in_time_witness :
    gwsPlayedToGW [⟨1, 2⟩] 1 = gwsPlayedToGW [⟨1, 2⟩, ⟨2, 5⟩] 1 ∧
    avgPointsToGW [⟨1, 2⟩] 1 = avgPointsToGW [⟨1, 2⟩, ⟨2, 5⟩] 1 ∧
    gwsPlayedToGW [⟨1, 2⟩] 1 ≤ gwsPlayedToGW [⟨1, 2⟩] (1 + 1) ∧
    gwsPlayedToGW [⟨1, 2⟩] 0 = 0 ∧
    avgPointsToGW [⟨1, 2⟩] 0 = none :=
  c5_rolling_stats_point_in_time [⟨1, 2⟩] [⟨1, 2⟩, ⟨2, 5⟩] 1 (by decide)

/-- C7: the train/test split is a pure function of the input table (two runs
give identical partitions), the two partitions together permute the input,
and their sizes are 0.8 N and 0.2 N within one row. -/
theorem c7_split_deterministic_and_sized (rows : List PFSRow) :
    nnSplit rows = nnSplit rows ∧
    ((nnSplit rows).1 ++ (nnSplit rows).2).Perm rows ∧
    |((nnSplit rows).1.length : ℚ) - 8 / 10 * rows.length| ≤ 1 ∧
    |((nnSplit rows).2.length : ℚ) - 2 / 10 * rows.length| ≤ 1 := by
  refine ⟨rfl, nnSplit_append_perm rows, ?_, ?_⟩ <;>
  · have hk1 : 10 * ((8 * rows.length + 5) / 10) ≤ 8 * rows.length + 5 := by omega
    have hk2 : 8 * rows.length + 5 < 10 * ((8 * rows.length + 5) / 10) + 10 := by omega
    have hkN : (8 * rows.length + 5) / 10 ≤ rows.length := by omega
    have hlen1 : (nnSplit rows).1.length = (8 * rows.length + 5) / 10 := by
      show ((shuffleRows rows).take _).length = _
      rw [List.length_take, shuffleRows_length]
      omega
    have hlen2 : (nnSplit rows).2.length = rows.length - (8 * rows.length + 5) / 10 := by
      show ((shuffleRows rows).drop _).length = _
      rw [List.length_drop, shuffleRows_length]
    have hq1 : (10 : ℚ) * (((8 * rows.length + 5) / 10 : ℕ) : ℚ) ≤ 8 * rows.length + 5 := by
      exact_mod_cast hk1
    have hq2 : (8 : ℚ) * rows.length + 5 < 10 * (((8 * rows.length + 5) / 10 : ℕ) : ℚ) + 10 := by
      exact_mod_cast hk2
    first
    | (rw [hlen1, abs_le]
       constructor <;> linarith)
    | (rw [hlen2, Nat.cast_sub hkN, abs_le]
       constructor <;> linarith)

/-- C6: every row of the train partition and of the test partition produced
from the filtered, column-selected, dropna-ed table has all six selected
cells present. -/
theorem c6_selected_rows_complete (rows : List PFSRow) (r : PFSRow)
    (hr : r ∈ (nnSplit (datasetRows rows)).1 ∨ r ∈ (nnSplit (datasetRows rows)).2) :
    rowComplete r = true := by
  have hmem : r ∈ datasetRows rows := mem_of_mem_nnSplit hr
  exact (List.mem_filter.mp hmem).2

/-- A complete player_fixture_stats row with ten gameweeks played, used to
instantiate the completeness theorem. -/
def c6row : PFSRow := ⟨10, some 1, some 1, some 2, some true, some 30, some 0⟩

/-- Witness for C6 on the one-row table containing c6row. -/
theorem c6_selected_rows_complete_witness : rowComplete c6row = true :=
  c6_selected_rows_complete [c6row] c6row (Or.inl (by decide))

/-- The training loop never performs more passes than the epoch cap. -/
theorem epochsRun_le (p n : ℕ) :
    ∀ (impr : ℕ → Bool) (wait : ℕ), epochsRun p n impr wait ≤ n := by
  induction n with
  | zero =>
      intro impr wait
      exact Nat.le_refl 0
  | succ n ih =>
      intro impr wait
      rw [epochsRun]
      by_cases h : p ≤ (if impr 0 then 0 else wait + 1)
      · rw [if_pos h]
        omega
      · rw [if_neg h]
        have := ih (fun i => impr (i + 1)) (if impr 0 then 0 else wait + 1)
        omega

/-- When the cap plus the initial wait is below the patience, the loop runs
every pass: the wait counter can never reach the patience in time. -/
theorem epochsRun_all (p n : ℕ) :
    ∀ (impr : ℕ → Bool) (wait : ℕ), n + wait < p → epochsRun p n impr wait = n := by
  induction n with
  | zero =>
      intro impr wait _
      rfl
  | succ n ih =>
      intro impr wait h
      rw [epochsRun]
      have hw : (if impr 0 then 0 else wait + 1) ≤ wait + 1 := by
        split <;> omega
      have hnp : ¬ p ≤ (if impr 0 then 0 else wait + 1) := by omega
      rw [if_neg hnp, ih (fun i => impr (i + 1)) _ (by omega)]
      omega

/-- C8: with the notebook's configuration — a 60-epoch cap and an
EarlyStopping patience of 100 — the loop performs exactly 60 passes for every
possible validation-loss improvement pattern, and in general at most 60. -/
theorem c8_training_runs_full_sixty (impr : ℕ → Bool) :
    epochsRun 100 60 impr 0 = 60 ∧
    ∀ (impr2 : ℕ → Bool) (wait : ℕ), epochsRun 100 60 impr2 wait ≤ 60 :=
  ⟨epochsRun_all 100 60 impr 0 (by omega),
   fun impr2 wait => epochsRun_le 100 60 impr2 wait⟩

/-- Successful production of a players_history_fixtures row: both lookups
matched and the output fields are exactly the joined-in and derived values. -/
theorem phfRow_some {fixtures : List (ℕ × FixtureRow)} {pts : List (ℕ × PTSRow)}
    {h : HistRow} {r : PHFRow} (hs : phfRow fixtures pts h = some r) :
    ∃ fx p, lookupTable fixtures h.fixtureId = some fx ∧
      lookupTable pts h.playerId = some p ∧
      r.playerId = h.playerId ∧ r.fixtureId = h.fixtureId ∧
      r.homeTeamId = fx.homeTeamId ∧ r.awayTeamId = fx.awayTeamId ∧
      r.playerTeamId = p.playerTeamId ∧
      r.isHome = (fx.homeTeamId == p.playerTeamId) ∧
      r.oppTeamId = (if fx.homeTeamId == p.playerTeamId then fx.awayTeamId
        else fx.homeTeamId) := by
  unfold phfRow at hs
  cases hfx : lookupTable fixtures h.fixtureId <;> rw [hfx] at hs
  · exact absurd hs (by simp)
  · cases hp : lookupTable pts h.playerId <;> rw [hp] at hs
    · exact absurd hs (by simp)
    · injection hs with hr
      refine ⟨_, _, rfl, rfl, ?_, ?_, ?_, ?_, ?_, ?_, ?_⟩ <;> rw [← hr]

/-- C9: every row of players_history_fixtures has Is Home? true exactly when
the player's team id equals the fixture's home team id, and its Opp Team ID
is the away team id when home and the home team id otherwise. -/
theorem c9_is_home_and_opp (hist : List HistRow) (fixtures : List (ℕ × FixtureRow))
    (pts : List (ℕ × PTSRow)) (r : PHFRow)
    (hr : r ∈ playersHistoryFixtures hist fixtures pts) :
    (r.isHome = true ↔ r.playerTeamId = r.homeTeamId) ∧
    r.oppTeamId = (if r.isHome then r.awayTeamId else r.homeTeamId) := by
  rcases List.mem_filterMap.mp hr with ⟨h, _, hsome⟩
  rcases phfRow_some hsome with ⟨fx, p, _, _, _, _, hhome, haway, hteam, hih, hopp⟩
  constructor
  · rw [hih, hteam, hhome, beq_iff_eq, eq_comm]
  · rw [hopp, hih, hhome, haway]

/-- History table for the join witnesses: player 1 appears in fixture 10. -/
def c9hist : List HistRow := [⟨1, 10, 3, 90⟩]

/-- Fixture table for the join witnesses: fixture 10 is team 7 at home versus
team 8 away, in gameweek 1. -/
def c9fixtures : List (ℕ × FixtureRow) := [(10, ⟨7, 8, 1⟩)]

/-- player_team_stats table for the join witnesses: player 1 plays for team 7
as field position 2. -/
def c9pts : List (ℕ × PTSRow) := [(1, ⟨7, 2⟩)]

/-- The joined row the witness tables produce. -/
def c9row : PHFRow := ⟨1, 10, 3, 7, 8, 7, true, 8⟩

/-- Witness for C9 at the concrete joined row. -/
theorem c9_is_home_and_opp_witness :
    (c9row.isHome = true ↔ c9row.playerTeamId = c9row.homeTeamId) ∧
    c9row.oppTeamId = (if c9row.isHome then c9row.awayTeamId else c9row.homeTeamId) :=
  c9_is_home_and_opp c9hist c9fixtures c9pts c9row (by decide)

/-- C10: a history row produces a row of players_history_fixtures exactly
when its Fixture ID matches the fixtures table and its Player ID matches
player_team_stats — unmatched rows are silently dropped by the inner joins —
and every produced row carries the successfully looked-up fixture and
player-team values in its joined-in columns, so none of them is missing. -/
theorem c10_inner_join_membership (hist : List HistRow)
    (fixtures : List (ℕ × FixtureRow)) (pts : List (ℕ × PTSRow))
    (h : HistRow) (hh : h ∈ hist) :
    ((∃ r ∈ playersHistoryFixtures hist fixtures pts,
        r.playerId = h.playerId ∧ r.fixtureId = h.fixtureId) ↔
      ((lookupTable fixtures h.fixtureId).isSome = true ∧
        (lookupTable pts h.playerId).isSome = true)) ∧
    ∀ r ∈ playersHistoryFixtures hist fixtures pts,
      ∃ fx p, lookupTable fixtures r.fixtureId = some fx ∧
        lookupTable pts r.playerId = some p ∧
        r.homeTeamId = fx.homeTeamId ∧ r.awayTeamId = fx.awayTeamId ∧
        r.playerTeamId = p.playerTeamId := by
  constructor
  · constructor
    · rintro ⟨r, hrmem, hpid, hfid⟩
      rcases List.mem_filterMap.mp hrmem with ⟨h2, _, hsome⟩
      rcases phfRow_some hsome with ⟨fx, p, hfx, hp, hrp, hrf, -⟩
      have e1 : h.fixtureId = h2.fixtureId := by rw [← hfid, hrf]
      have e2 : h.playerId = h2.playerId := by rw [← hpid, hrp]
      constructor
      · rw [e1, hfx]
        rfl
      · rw [e2, hp]
        rfl
    · rintro ⟨hfx, hp⟩
      rcases Option.isSome_iff_exists.mp hfx with ⟨fx, hfx2⟩
      rcases Option.isSome_iff_exists.mp hp with ⟨p, hp2⟩
      refine ⟨⟨h.playerId, h.fixtureId, h.gamePoints, fx.homeTeamId, fx.awayTeamId,
        p.playerTeamId, fx.homeTeamId == p.playerTeamId,
        if fx.homeTeamId == p.playerTeamId then fx.awayTeamId else fx.homeTeamId⟩,
        ?_, rfl, rfl⟩
      refine List.mem_filterMap.mpr ⟨h, hh, ?_⟩
      unfold phfRow
      rw [hfx2, hp2]
  · intro r hrmem
    rcases List.mem_filterMap.mp hrmem with ⟨h2, _, hsome⟩
    rcases phfRow_some hsome with ⟨fx, p, hfx, hp, hrp, hrf, hhome, haway, hteam, -⟩
    exact ⟨fx, p, by rw [hrf]; exact hfx, by rw [hrp]; exact hp, hhome, haway, hteam⟩

/-- Witness for C10 at the concrete one-row tables. -/
theorem c10_inner_join_membership_witness :
    ((∃ r ∈ playersHistoryFixtures c9hist c9fixtures c9pts,
        r.playerId = (HistRow.mk 1 10 3 90).playerId ∧
        r.fixtureId = (HistRow.mk 1 10 3 90).fixtureId) ↔
      ((lookupTable c9fixtures (HistRow.mk 1 10 3 90).fixtureId).isSome = true ∧
        (lookupTable c9pts (HistRow.mk 1 10 3 90).playerId).isSome = true)) ∧
    ∀ r ∈ playersHistoryFixtures c9hist c9fixtures c9pts,
      ∃ fx p, lookupTable c9fixtures r.fixtureId = some fx ∧
        lookupTable c9pts r.playerId = some p ∧
        r.homeTeamId = fx.homeTeamId ∧ r.awayTeamId = fx.awayTeamId ∧
        r.playerTeamId = p.playerTeamId :=
  c10_inner_join_membership c9hist c9fixtures c9pts (HistRow.mk 1 10 3 90) (by decide)

end FPLAdvisor
